import Mathlib

/-!
Verification of the doquery ingestion-and-retrieval pipeline.

This file shallowly embeds the algorithmic core of the repository:

* `backend/app/utils/text_splitter.py` — the segmenter (`TextSplitter.split_text`,
  `TextSplitter._find_sentence_end`);
* `backend/app/ml/openai_provider.py`, `local_provider.py`, `huggingface_provider.py`
  — the embedding providers (`get_embedding`, `get_embeddings`);
* `backend/app/ml/provider.py` — provider selection (`get_model_provider`);
* `backend/app/services/search.py` — retrieval (`SearchService.search_documents`,
  `SearchService._fallback_search`);
* `backend/app/services/document.py` and `backend/app/api/endpoints/documents.py`
  — the document lifecycle (`create_document`, the final `chunk_ids` write of
  `process_document`, `delete_document`, and the derived status reported by the
  listing endpoints).

Texts are embedded as `List Char` with `Nat` indices (the Python code only ever
indexes with non-negative values on the runs analysed here; `Nat` subtraction
clamps at zero exactly where Python would go negative, and none of the stated
theorems touches that region).  Python floats are idealised as rationals.
External I/O (HTTP responses, database rows) is passed in as explicit data.
-/

/- ------------------------------------------------------------------ -/
/- Segmenter: backend/app/utils/text_splitter.py                      -/
/- ------------------------------------------------------------------ -/

/-- Embedding of Python `text.rfind(c, s, e)` for a single character `c`:
the largest index `i` with `s ≤ i < e`, `i` in range of `t`, and `t[i] = c`;
`none` plays the role of Python's `-1`.  The scan runs from the top of the
range downward, exactly as `str.rfind` does. -/
def rfind_char (t : List Char) (c : Char) (s e : Nat) : Option Nat :=
  (List.range e).reverse.find? (fun i =>
    decide (s ≤ i) && decide (i < t.length) && (t.getD i ' ' == c))

/-- Embedding of Python `text.rfind("\n\n", s, e)`: the largest index `i`
with `s ≤ i`, `i + 2 ≤ e`, the two characters at `i`, `i+1` both in range and
equal to a newline. -/
def rfind_para (t : List Char) (s e : Nat) : Option Nat :=
  (List.range e).reverse.find? (fun i =>
    decide (s ≤ i) && decide (i + 2 ≤ e) && decide (i + 1 < t.length) &&
    (t.getD i ' ' == '\n') && (t.getD (i + 1) ' ' == '\n'))

/-- The `last_idx = text.rfind(punct, start, end); if last_idx != -1 and
last_idx > start + self.chunk_size // 2: return last_idx` step of
`_find_sentence_end`, for one punctuation character. -/
def punctCandidate (chunk_size : Nat) (t : List Char) (start e : Nat) (c : Char) : Option Nat :=
  match rfind_char t c start e with
  | some i => if start + chunk_size / 2 < i then some i else none
  | none => none

/-- Embedding of `TextSplitter._find_sentence_end(text, start, end)`
(text_splitter.py lines 111–128).  First a backward scan over
`range(end - 1, start, -1)` for a `'.'` that is not the last character of the
text and is followed by `' '` or `'\n'`; failing that, the last `'!'` in the
window provided it lies past `start + chunk_size // 2`; failing that the same
for `'?'`.  `none` is Python's `-1`. -/
def find_sentence_end (chunk_size : Nat) (t : List Char) (start e : Nat) : Option Nat :=
  match (List.range e).reverse.find? (fun i =>
      decide (start < i) && decide (i + 1 < t.length) && (t.getD i ' ' == '.') &&
      ((t.getD (i + 1) ' ' == ' ') || (t.getD (i + 1) ' ' == '\n'))) with
  | some i => some i
  | none =>
    match punctCandidate chunk_size t start e '!' with
    | some i => some i
    | none => punctCandidate chunk_size t start e '?'

/-- Python slice `text[a:b]` for non-negative bounds (clamping at the ends,
empty when `a ≥ b`). -/
def pySlice (t : List Char) (a b : Nat) : List Char :=
  (t.take b).drop a

/-- One loop iteration's break-point choice in `TextSplitter.split_text`
(text_splitter.py lines 63–92): try a paragraph break past the midpoint, then
`_find_sentence_end`, then a space past the midpoint, else the hard cutoff at
`start + chunk_size`. -/
def chooseEnd (chunk_size : Nat) (t : List Char) (start : Nat) : Nat :=
  let e0 := start + chunk_size
  match rfind_para t start e0 with
  | some p =>
    if start + chunk_size / 2 < p then p + 2
    else
      match find_sentence_end chunk_size t start e0 with
      | some sb => sb + 1
      | none =>
        match rfind_char t ' ' start e0 with
        | some sp => if start + chunk_size / 2 < sp then sp + 1 else e0
        | none => e0
  | none =>
    match find_sentence_end chunk_size t start e0 with
    | some sb => sb + 1
    | none =>
      match rfind_char t ' ' start e0 with
      | some sp => if start + chunk_size / 2 < sp then sp + 1 else e0
      | none => e0

/-- The `while start_idx < len(text)` loop of `TextSplitter.split_text`
(text_splitter.py lines 56–106), with an explicit fuel so that the (possibly
non-terminating) loop is a total Lean function.  `none` means the fuel ran out
before the loop finished, i.e. the loop performed at least `fuel` iterations.
Each iteration: if the tail fits in one window, emit `text[start:]` and stop;
otherwise emit `text[start:end]` for the chosen `end`, then
`start = end - chunk_overlap`, resetting `start = end` when `start >= end`
(the code's progress guard, which only fires for `chunk_overlap = 0`). -/
def split_go (chunk_size chunk_overlap : Nat) (t : List Char) :
    Nat → Nat → List (List Char) → Option (List (List Char))
  | 0, _, _ => none
  | fuel + 1, start, acc =>
    if start < t.length then
      if t.length ≤ start + chunk_size then
        some (acc ++ [t.drop start])
      else
        let e := chooseEnd chunk_size t start
        let s2 := e - chunk_overlap
        let s3 := if e ≤ s2 then e else s2
        split_go chunk_size chunk_overlap t fuel s3 (acc ++ [pySlice t start e])
    else some acc

/-- Embedding of `TextSplitter.split_text(text)` (text_splitter.py lines
36–109).  Texts no longer than `chunk_size` are returned whole; otherwise the
loop runs with `length + 1` fuel (enough for any terminating run, since a
terminating loop emits at least one character per iteration). -/
def split_text (chunk_size chunk_overlap : Nat) (t : List Char) : Option (List (List Char)) :=
  if t.length ≤ chunk_size then some [t]
  else split_go chunk_size chunk_overlap t (t.length + 1) 0 []

/- ------------------------------------------------------------------ -/
/- C8: short texts come back as a single chunk                        -/
/- ------------------------------------------------------------------ -/

/-- C8: for every text with `len(text) ≤ chunk_size`, `split_text` returns
exactly the one-element list `[text]`; in particular the empty text yields a
single empty chunk. -/
theorem split_text_short (chunk_size chunk_overlap : Nat) (t : List Char)
    (h : t.length ≤ chunk_size) :
    split_text chunk_size chunk_overlap t = some [t] := by
  simp [split_text, h]

/-- Witness for C8 at a concrete input: the empty text with the production
configuration `chunk_size=1000, chunk_overlap=200` yields one empty chunk. -/
theorem split_text_short_witness :
    ([] : List Char).length ≤ 1000 ∧ split_text 1000 200 [] = some [[]] :=
  ⟨by decide, split_text_short 1000 200 [] (by decide)⟩

/- ------------------------------------------------------------------ -/
/- C9: concrete hard-cutoff split of 1200 repeated characters         -/
/- ------------------------------------------------------------------ -/

/-- `getD` inside a replicated list. -/
theorem getD_replicate_lt {n i : Nat} {a d : Char} (h : i < n) :
    (List.replicate n a).getD i d = a := by
  simp [List.getD_eq_getElem?_getD, List.getElem?_replicate, h]

/-- A backward scan finds nothing when the predicate is everywhere false. -/
theorem find?_reverse_range_none (e : Nat) (p : Nat → Bool)
    (h : ∀ i, i < e → p i = false) : (List.range e).reverse.find? p = none := by
  rw [List.find?_eq_none]
  intro i hi
  rw [List.mem_reverse, List.mem_range] at hi
  simp [h i hi]

/-- `rfind_char` finds nothing in a replicated list of a different character. -/
theorem rfind_char_replicate {n : Nat} {a c : Char} (h : a ≠ c) (s e : Nat) :
    rfind_char (List.replicate n a) c s e = none := by
  apply find?_reverse_range_none
  intro i _
  by_cases hi : i < n
  · have hg : ((List.replicate n a).getD i ' ' == c) = false := by
      rw [getD_replicate_lt hi]
      exact beq_eq_false_iff_ne.mpr h
    simp only [hg, Bool.and_false]
  · have hg : decide (i < (List.replicate n a).length) = false := by
      simp [List.length_replicate, hi]
    simp only [hg, Bool.and_false, Bool.false_and]

/-- `rfind_para` finds nothing in a replicated non-newline list. -/
theorem rfind_para_replicate {n : Nat} {a : Char} (h : a ≠ '\n') (s e : Nat) :
    rfind_para (List.replicate n a) s e = none := by
  apply find?_reverse_range_none
  intro i _
  by_cases hi : i < n
  · have hg : ((List.replicate n a).getD i ' ' == '\n') = false := by
      rw [getD_replicate_lt hi]
      exact beq_eq_false_iff_ne.mpr h
    simp only [hg, Bool.and_false, Bool.false_and]
  · have hg : decide (i + 1 < (List.replicate n a).length) = false := by
      simp [List.length_replicate]
      omega
    simp only [hg, Bool.and_false, Bool.false_and]

/-- `_find_sentence_end` finds nothing in a replicated list free of sentence
punctuation. -/
theorem find_sentence_end_replicate {n : Nat} {a : Char} (h2 : a ≠ '.') (h3 : a ≠ '!')
    (h4 : a ≠ '?') (cs start e : Nat) :
    find_sentence_end cs (List.replicate n a) start e = none := by
  have hd : (List.range e).reverse.find? (fun i =>
      decide (start < i) && decide (i + 1 < (List.replicate n a).length) &&
      ((List.replicate n a).getD i ' ' == '.') &&
      (((List.replicate n a).getD (i + 1) ' ' == ' ') ||
        ((List.replicate n a).getD (i + 1) ' ' == '\n'))) = none := by
    apply find?_reverse_range_none
    intro i _
    by_cases hi : i < n
    · have hg : ((List.replicate n a).getD i ' ' == '.') = false := by
        rw [getD_replicate_lt hi]
        exact beq_eq_false_iff_ne.mpr h2
      simp only [hg, Bool.and_false, Bool.false_and]
    · have hg : decide (i + 1 < (List.replicate n a).length) = false := by
        simp [List.length_replicate]
        omega
      simp only [hg, Bool.and_false, Bool.false_and]
  have hb : punctCandidate cs (List.replicate n a) start e '!' = none := by
    unfold punctCandidate
    rw [rfind_char_replicate h3]
  have hq : punctCandidate cs (List.replicate n a) start e '?' = none := by
    unfold punctCandidate
    rw [rfind_char_replicate h4]
  unfold find_sentence_end
  rw [hd, hb, hq]
/-- On a repeated filler character every break-point search fails, so the
splitter takes the hard cutoff at `start + chunk_size`. -/
theorem chooseEnd_replicate {n : Nat} {a : Char} (h1 : a ≠ '\n') (h2 : a ≠ '.')
    (h3 : a ≠ '!') (h4 : a ≠ '?') (h5 : a ≠ ' ') (cs start : Nat) :
    chooseEnd cs (List.replicate n a) start = start + cs := by
  unfold chooseEnd
  simp only [rfind_para_replicate h1, find_sentence_end_replicate h2 h3 h4,
    rfind_char_replicate h5]

/-- One middle iteration of the splitting loop, spelled out. -/
theorem split_go_step (chunk_size chunk_overlap : Nat) (t : List Char) (fuel start : Nat)
    (acc : List (List Char)) (h1 : start < t.length) (h2 : ¬ t.length ≤ start + chunk_size) :
    split_go chunk_size chunk_overlap t (fuel + 1) start acc =
      split_go chunk_size chunk_overlap t fuel
        (if chooseEnd chunk_size t start ≤ chooseEnd chunk_size t start - chunk_overlap then
          chooseEnd chunk_size t start
        else chooseEnd chunk_size t start - chunk_overlap)
        (acc ++ [pySlice t start (chooseEnd chunk_size t start)]) := by
  rw [split_go, if_pos h1, if_neg h2]

/-- The final iteration of the splitting loop: the tail fits in one window. -/
theorem split_go_last (chunk_size chunk_overlap : Nat) (t : List Char) (fuel start : Nat)
    (acc : List (List Char)) (h1 : start < t.length) (h2 : t.length ≤ start + chunk_size) :
    split_go chunk_size chunk_overlap t (fuel + 1) start acc = some (acc ++ [t.drop start]) := by
  rw [split_go, if_pos h1, if_pos h2]

/-- C9: for 1200 repetitions of a single non-whitespace, non-punctuation
character with `chunk_size=1000` and `chunk_overlap=200`, `split_text` returns
exactly two chunks: offsets `[0,1000)` and `[800,1200)`. -/
theorem split_text_1200_hard_cutoff :
    split_text 1000 200 (List.replicate 1200 'a') =
      some [List.replicate 1000 'a', List.replicate 400 'a'] := by
  have hce0 : chooseEnd 1000 (List.replicate 1200 'a') 0 = 1000 :=
    chooseEnd_replicate (by decide) (by decide) (by decide) (by decide) (by decide) 1000 0
  unfold split_text
  rw [List.length_replicate]
  rw [if_neg (by norm_num)]
  rw [split_go_step 1000 200 (List.replicate 1200 'a') 1200 0 []
    (by rw [List.length_replicate]; norm_num) (by rw [List.length_replicate]; norm_num)]
  rw [hce0]
  norm_num
  rw [show (1200 : Nat) = 1199 + 1 from rfl]
  rw [split_go_last 1000 200 (List.replicate 1200 'a') 1199 800 _
    (by rw [List.length_replicate]; norm_num) (by rw [List.length_replicate]; norm_num)]
  have hslice : pySlice (List.replicate 1200 'a') 0 1000 = List.replicate 1000 'a' := by
    unfold pySlice
    rw [List.drop_zero, List.take_replicate, min_eq_left (by norm_num : (1000 : Nat) ≤ 1200)]
  have hdrop : (List.replicate 1200 'a').drop 800 = List.replicate 400 'a' := by
    rw [List.drop_replicate]
  rw [hslice, hdrop]
  rfl

/- ------------------------------------------------------------------ -/
/- C1: the forced-progress guard never fires for overlap ≥ chunk size -/
/- ------------------------------------------------------------------ -/

/-- On 25 repeated characters with `chunk_size=10` there is no usable break
point, so the loop picks the hard cutoff `start + 10`. -/
theorem chooseEnd_stuck : chooseEnd 10 (List.replicate 25 'a') 0 = 10 := by decide

/-- C1 (refuted: the code does not terminate).  With `chunk_size=10`,
`chunk_overlap=10` and 25 repeated characters, the first iteration emits the
chunk `[0,10)` and computes `next_start = 10 - 10 = 0`; the progress guard
`start_idx >= end_idx` does not fire (`0 < 10`), so `start_idx` stays `0` and
the loop never terminates: the fuel-indexed loop returns `none` (fuel
exhausted) for every fuel and every accumulator. -/
theorem split_go_nonterminating :
    ∀ (fuel : Nat) (acc : List (List Char)),
      split_go 10 10 (List.replicate 25 'a') fuel 0 acc = none := by
  intro fuel
  induction fuel with
  | zero => intro acc; rfl
  | succ n ih =>
    intro acc
    simp only [split_go, chooseEnd_stuck]
    norm_num
    exact ih _

/- ------------------------------------------------------------------ -/
/- C4: what `_find_sentence_end` actually returns                     -/
/- ------------------------------------------------------------------ -/

/-- Counterexample to C4 as stated: with `chunk_size=10`, scanning the window
`[0,10)` of the text `aaaaaaa!bbb`, `_find_sentence_end` chooses the `'!'` at
index 7 (past the midpoint 5) even though the following character is `'b'`,
not whitespace — the followed-by-whitespace condition applies only to the
`'.'` scan in the code. -/
theorem find_sentence_end_counterexample :
    find_sentence_end 10 ['a', 'a', 'a', 'a', 'a', 'a', 'a', '!', 'b', 'b', 'b'] 0 10 = some 7 ∧
    ((['a', 'a', 'a', 'a', 'a', 'a', 'a', '!', 'b', 'b', 'b'].getD 8 ' ').isWhitespace = false) := by
  decide

/-- Facts extracted from a successful `rfind_char`. -/
theorem rfind_char_spec {t : List Char} {c : Char} {s e j : Nat}
    (h : rfind_char t c s e = some j) :
    s ≤ j ∧ j < t.length ∧ j < e ∧ t.getD j ' ' = c := by
  unfold rfind_char at h
  have hm := List.mem_of_find?_eq_some h
  have hp := List.find?_some h
  rw [List.mem_reverse, List.mem_range] at hm
  simp only [Bool.and_eq_true, decide_eq_true_eq, beq_iff_eq] at hp
  exact ⟨hp.1.1, hp.1.2, hm, hp.2⟩

/-- Facts extracted from a successful `punctCandidate`. -/
theorem punctCandidate_spec {cs : Nat} {t : List Char} {start e : Nat} {c : Char} {i : Nat}
    (h : punctCandidate cs t start e c = some i) :
    t.getD i ' ' = c ∧ start ≤ i ∧ i < t.length ∧ i < e ∧ start + cs / 2 < i := by
  unfold punctCandidate at h
  split at h
  next j hf =>
    split at h
    next hc =>
      cases h
      have hs := rfind_char_spec hf
      exact ⟨hs.2.2.2, hs.1, hs.2.1, hs.2.2.1, hc⟩
    next hc => cases h
  next hf => cases h

/-- C4, amended: whenever `_find_sentence_end` chooses a break index `i`,
either `i` holds a `'.'` strictly between `start` and `end`, not the last
character of the text, immediately followed by a space or a newline; or `i`
holds the last `'!'` (or, when no `'!'` qualifies, `'?'`) of the window
`[start, end)` and lies strictly past `start + chunk_size / 2` — with no
constraint on the character that follows it. -/
theorem find_sentence_end_chars (cs : Nat) (t : List Char) (start e i : Nat)
    (h : find_sentence_end cs t start e = some i) :
    (start < i ∧ i + 1 < t.length ∧ i < e ∧ t.getD i ' ' = '.' ∧
      (t.getD (i + 1) ' ' = ' ' ∨ t.getD (i + 1) ' ' = '\n')) ∨
    ((t.getD i ' ' = '!' ∨ t.getD i ' ' = '?') ∧ start ≤ i ∧ i < t.length ∧ i < e ∧
      start + cs / 2 < i) := by
  unfold find_sentence_end at h
  cases hdot : (List.range e).reverse.find? (fun i =>
      decide (start < i) && decide (i + 1 < t.length) && (t.getD i ' ' == '.') &&
      ((t.getD (i + 1) ' ' == ' ') || (t.getD (i + 1) ' ' == '\n'))) with
  | some j =>
    rw [hdot] at h
    cases h
    have hm := List.mem_of_find?_eq_some hdot
    have hp := List.find?_some hdot
    rw [List.mem_reverse, List.mem_range] at hm
    simp only [Bool.and_eq_true, Bool.or_eq_true, decide_eq_true_eq, beq_iff_eq] at hp
    exact Or.inl ⟨hp.1.1.1, hp.1.1.2, hm, hp.1.2, hp.2⟩
  | none =>
    rw [hdot] at h
    cases hbang : punctCandidate cs t start e '!' with
    | some j =>
      rw [hbang] at h
      cases h
      have hs := punctCandidate_spec hbang
      exact Or.inr ⟨Or.inl hs.1, hs.2.1, hs.2.2.1, hs.2.2.2.1, hs.2.2.2.2⟩
    | none =>
      rw [hbang] at h
      have hs := punctCandidate_spec h
      exact Or.inr ⟨Or.inr hs.1, hs.2.1, hs.2.2.1, hs.2.2.2.1, hs.2.2.2.2⟩

/-- Witness for the amended C4 at a concrete input: on `abcd. efgh` the scan
chooses the `'.'` at index 4, and the extracted facts hold there. -/
theorem find_sentence_end_chars_witness :
    (0 < 4 ∧ 4 + 1 < (['a', 'b', 'c', 'd', '.', ' ', 'e', 'f', 'g', 'h'] : List Char).length ∧
      4 < 10 ∧ (['a', 'b', 'c', 'd', '.', ' ', 'e', 'f', 'g', 'h'].getD 4 ' ') = '.' ∧
      ((['a', 'b', 'c', 'd', '.', ' ', 'e', 'f', 'g', 'h'].getD (4 + 1) ' ') = ' ' ∨
        (['a', 'b', 'c', 'd', '.', ' ', 'e', 'f', 'g', 'h'].getD (4 + 1) ' ') = '\n')) ∨
    (((['a', 'b', 'c', 'd', '.', ' ', 'e', 'f', 'g', 'h'].getD 4 ' ') = '!' ∨
        (['a', 'b', 'c', 'd', '.', ' ', 'e', 'f', 'g', 'h'].getD 4 ' ') = '?') ∧
      0 ≤ 4 ∧ 4 < (['a', 'b', 'c', 'd', '.', ' ', 'e', 'f', 'g', 'h'] : List Char).length ∧
      4 < 10 ∧ 0 + 10 / 2 < 4) :=
  find_sentence_end_chars 10 ['a', 'b', 'c', 'd', '.', ' ', 'e', 'f', 'g', 'h'] 0 10 4 (by decide)

/- ------------------------------------------------------------------ -/
/- Providers: backend/app/ml/*.py                                     -/
/- ------------------------------------------------------------------ -/

/-- Python exceptions observed by the provider code: a transport error from
the HTTP client, an `IndexError` from `[0]` on an empty list, a
`ZeroDivisionError` from dividing by a zero length. -/
inductive PyErr
  | transport
  | indexError
  | zeroDivision
deriving DecidableEq

/-- Outcome of a `requests.post` call: either the call raised, or it returned
a response with a status code and a parsed JSON body. -/
inductive HttpResult (β : Type)
  | exn
  | resp (status : Nat) (body : β)
deriving DecidableEq

/-- One element of `response.data` in an OpenAI embeddings response. -/
structure OpenAIEmbedItem where
  embedding : List ℚ
deriving DecidableEq

/-- An OpenAI embeddings response: `response.data` is a list of items. -/
structure OpenAIEmbedResponse where
  data : List OpenAIEmbedItem
deriving DecidableEq

/-- Embedding of `OpenAIProvider.get_embedding` (openai_provider.py lines
20–33).  The call `self.client.embeddings.create(...)` either raises (left as
`Except.error`: there is no `try` in this method, so the exception propagates
to the caller) or returns a response, from which `response.data[0].embedding`
is taken (`IndexError` when `data` is empty). -/
def openai_get_embedding (resp : Except PyErr OpenAIEmbedResponse) : Except PyErr (List ℚ) :=
  match resp with
  | .error e => .error e
  | .ok r =>
    match r.data.head? with
    | none => .error .indexError
    | some item => .ok item.embedding

/-- Embedding of `OpenAIProvider.get_embeddings` (openai_provider.py lines
35–48): `[data.embedding for data in response.data]`, again with no `try`. -/
def openai_get_embeddings (texts : List String) (resp : Except PyErr OpenAIEmbedResponse) :
    Except PyErr (List (List ℚ)) :=
  match texts, resp with
  | _, .error e => .error e
  | _, .ok r => .ok (r.data.map (fun item => item.embedding))

/-- One element of the `"data"` list in a local-server embeddings response;
`embedding?` is `none` when the JSON object has no `"embedding"` key. -/
structure LocalEmbedItem where
  embedding? : Option (List ℚ)
deriving DecidableEq

/-- A local-server embeddings response body; `data?` is `none` when the JSON
object has no `"data"` key. -/
structure LocalEmbedBody where
  data? : Option (List LocalEmbedItem)
deriving DecidableEq

/-- Embedding of `LocalProvider.get_embedding` (local_provider.py lines
32–60).  On status 200 it takes `data.get("data", [{}])[0].get("embedding",
[0.0] * dim)`; an `IndexError` from `[0]` on an empty `"data"` list is caught
by the surrounding `except`, which — like a non-200 status or a transport
error — returns the zero vector of length `dim`. -/
def local_get_embedding (dim : Nat) (r : HttpResult LocalEmbedBody) : List ℚ :=
  match r with
  | .exn => List.replicate dim 0
  | .resp status body =>
    if status = 200 then
      match (body.data?.getD [{ embedding? := none }]).head? with
      | none => List.replicate dim 0
      | some item => item.embedding?.getD (List.replicate dim 0)
    else List.replicate dim 0

/-- Embedding of `LocalProvider.get_embeddings` (local_provider.py lines
62–100).  On status 200 every `"data"` item contributes
`item.get("embedding", [0.0] * dim)`; when fewer items than texts arrive the
list is padded with zero vectors (`len(texts) - len(embeddings)` extra
entries, which in Python is an empty extension when negative — mirrored
exactly by truncated `Nat` subtraction).  Any failure yields one zero vector
per text. -/
def local_get_embeddings (dim : Nat) (texts : List String) (r : HttpResult LocalEmbedBody) :
    List (List ℚ) :=
  match r with
  | .exn => texts.map (fun _ => List.replicate dim 0)
  | .resp status body =>
    if status = 200 then
      let embeddings := (body.data?.getD []).map
        (fun item => item.embedding?.getD (List.replicate dim 0))
      if embeddings.length = texts.length then embeddings
      else embeddings ++ List.replicate (texts.length - embeddings.length) (List.replicate dim 0)
    else texts.map (fun _ => List.replicate dim 0)

/-- The JSON body of a HuggingFace embeddings response, as far as
`HuggingFaceProvider.get_embedding` inspects it: a non-empty list whose first
element is itself a list, a non-empty flat list of numbers, an empty list, or
anything that is not a list. -/
inductive HFEmbedBody
  | nested (first : List ℚ) (rest : List (List ℚ))
  | flat (first : ℚ) (rest : List ℚ)
  | emptyList
  | nonList
deriving DecidableEq

/-- Embedding of `HuggingFaceProvider.get_embedding` (huggingface_provider.py
lines 27–67).  On status 200: a list-of-lists yields its first element, a
flat list is returned whole, and any unexpected shape yields the zero vector;
non-200 statuses and transport errors also yield the zero vector. -/
def hf_get_embedding (dim : Nat) (r : HttpResult HFEmbedBody) : List ℚ :=
  match r with
  | .exn => List.replicate dim 0
  | .resp status body =>
    if status = 200 then
      match body with
      | .nested first _ => first
      | .flat c rest => c :: rest
      | .emptyList => List.replicate dim 0
      | .nonList => List.replicate dim 0
    else List.replicate dim 0

/-- Embedding of `HuggingFaceProvider.get_embeddings` (huggingface_provider.py
lines 69–80): one `get_embedding` call per text, in order.  `respOf` gives the
outcome of the HTTP call made for each text. -/
def hf_get_embeddings (dim : Nat) (texts : List String)
    (respOf : String → HttpResult HFEmbedBody) : List (List ℚ) :=
  texts.map (fun t => hf_get_embedding dim (respOf t))

/-- The failure conditions of `LocalProvider.get_embedding`: a transport
error, a non-200 status, or a 200 body from which no embedding can be parsed
(missing `"data"` key, empty `"data"` list, or a first item without an
`"embedding"` key). -/
def localEmbedFailed (r : HttpResult LocalEmbedBody) : Bool :=
  match r with
  | .exn => true
  | .resp status body =>
    if status = 200 then
      match body.data? with
      | none => true
      | some [] => true
      | some (item :: _) => item.embedding?.isNone
    else true

/-- The failure conditions of `HuggingFaceProvider.get_embedding`: a
transport error, a non-200 status, or an unexpected 200 body shape. -/
def hfEmbedFailed (r : HttpResult HFEmbedBody) : Bool :=
  match r with
  | .exn => true
  | .resp status body =>
    if status = 200 then
      match body with
      | .emptyList => true
      | .nonList => true
      | _ => false
    else true

/- ------------------------------------------------------------------ -/
/- C2: fail-open on embedding failures                                -/
/- ------------------------------------------------------------------ -/

/-- Counterexample to C2 as stated: the OpenAI variant's `get_embedding` has
no `try`/`except`, so a transport failure propagates as a raised exception
instead of producing a zero vector of the configured dimension (1536 by
default). -/
theorem openai_get_embedding_raises :
    openai_get_embedding (Except.error PyErr.transport) = Except.error PyErr.transport ∧
    openai_get_embedding (Except.error PyErr.transport) ≠
      Except.ok (List.replicate 1536 (0 : ℚ)) := by
  exact ⟨rfl, fun h => Except.noConfusion h⟩

/-- C2, amended: the self-hosted (local) and community-hub (HuggingFace)
variants return the all-zero vector of length `dim` — and raise nothing — on
every transport or parse failure; the remote-commercial (OpenAI) variant
instead propagates the failure as a raised exception. -/
theorem get_embedding_fail_open (dim : Nat) :
    (∀ r, localEmbedFailed r = true → local_get_embedding dim r = List.replicate dim 0) ∧
    (∀ r, hfEmbedFailed r = true → hf_get_embedding dim r = List.replicate dim 0) ∧
    (List.replicate dim (0 : ℚ)).length = dim ∧
    (∀ e, openai_get_embedding (Except.error e) = Except.error e) := by
  refine ⟨?_, ?_, List.length_replicate dim 0, fun e => rfl⟩
  · intro r hr
    match r with
    | .exn => rfl
    | .resp status body =>
      by_cases hs : status = 200
      · simp only [localEmbedFailed, hs, if_true] at hr
        match hb : body.data? with
        | none => simp [local_get_embedding, hs, hb]
        | some [] => simp [local_get_embedding, hs, hb]
        | some (item :: rest) =>
          rw [hb] at hr
          simp only [local_get_embedding, hs, if_true, hb]
          simp [Option.isNone_iff_eq_none.mp hr]
      · simp [local_get_embedding, hs]
  · intro r hr
    match r with
    | .exn => rfl
    | .resp status body =>
      by_cases hs : status = 200
      · simp only [hfEmbedFailed, hs, if_true] at hr
        match body with
        | .nested first rest => simp at hr
        | .flat c rest => simp at hr
        | .emptyList => simp [hf_get_embedding, hs]
        | .nonList => simp [hf_get_embedding, hs]
      · simp [hf_get_embedding, hs]

/-- Witness for the amended C2 at concrete inputs: a transport error on the
local variant and a 500 status on the HuggingFace variant both yield the
3-dimensional zero vector; a transport error on the OpenAI variant is
re-raised. -/
theorem get_embedding_fail_open_witness :
    local_get_embedding 3 HttpResult.exn = List.replicate 3 0 ∧
    hf_get_embedding 3 (HttpResult.resp 500 HFEmbedBody.nonList) = List.replicate 3 0 ∧
    openai_get_embedding (Except.error PyErr.transport) = Except.error PyErr.transport :=
  ⟨(get_embedding_fail_open 3).1 HttpResult.exn (by decide),
   (get_embedding_fail_open 3).2.1 (HttpResult.resp 500 HFEmbedBody.nonList) (by decide),
   (get_embedding_fail_open 3).2.2.2 PyErr.transport⟩

/- ------------------------------------------------------------------ -/
/- C3: batch embedding lengths                                        -/
/- ------------------------------------------------------------------ -/

/-- Counterexample to C3 as stated: when the local server's 200 response
carries more `"data"` items than there were input texts, the padding step
`embeddings + [[0.0]*dim] * (len(texts) - len(embeddings))` extends by
nothing, and `get_embeddings` returns more vectors than texts. -/
theorem local_get_embeddings_too_long :
    (local_get_embeddings 1 ["a"]
        (HttpResult.resp 200 ⟨some [⟨some [(5 : ℚ)]⟩, ⟨some [(6 : ℚ)]⟩]⟩)).length = 2 ∧
    (["a"] : List String).length = 1 := by
  exact ⟨rfl, rfl⟩

/-- The number of `"data"` items a local-server response contributes before
padding. -/
def localItemCount (r : HttpResult LocalEmbedBody) : Nat :=
  match r with
  | .exn => 0
  | .resp status body => if status = 200 then (body.data?.getD []).length else 0

/-- C3, amended: the HuggingFace variant always returns exactly one vector
per input text, the vector at position `i` being `get_embedding` of the text
at position `i`; the local variant returns exactly `texts.length` vectors
whenever the response carries at most that many items (missing entries are
padded with zero vectors), but passes longer responses through unshortened;
the OpenAI variant returns one vector per response item, with no relation to
the number of texts enforced. -/
theorem get_embeddings_lengths (dim : Nat) (texts : List String) :
    (∀ respOf : String → HttpResult HFEmbedBody,
      (hf_get_embeddings dim texts respOf).length = texts.length) ∧
    (∀ (respOf : String → HttpResult HFEmbedBody) (i : Nat),
      (hf_get_embeddings dim texts respOf)[i]? =
      (texts[i]?).map (fun t => hf_get_embedding dim (respOf t))) ∧
    (∀ r, localItemCount r ≤ texts.length →
      (local_get_embeddings dim texts r).length = texts.length) ∧
    (∀ r, openai_get_embeddings texts (Except.ok r) =
      Except.ok (r.data.map (fun item => item.embedding))) := by
  refine ⟨fun respOf => List.length_map texts _, ?_, ?_, fun r => rfl⟩
  · intro respOf i
    simp [hf_get_embeddings, List.getElem?_map]
  · intro r hr
    match r with
    | .exn => simp [local_get_embeddings]
    | .resp status body =>
      by_cases hs : status = 200
      · simp only [localItemCount, hs, if_true] at hr
        simp only [local_get_embeddings, hs, if_true]
        by_cases hl : ((body.data?.getD []).map
            (fun item => item.embedding?.getD (List.replicate dim 0))).length = texts.length
        · simp [hl]
        · rw [if_neg hl]
          rw [List.length_append, List.length_replicate, List.length_map]
          rw [List.length_map] at hl
          exact Nat.add_sub_cancel' hr
      · simp [local_get_embeddings, hs]

/-- Witness for the amended C3 at concrete inputs: two texts with a failing
transport yield two vectors from both the HuggingFace and local variants. -/
theorem get_embeddings_lengths_witness :
    (hf_get_embeddings 2 ["x", "y"] (fun _ => HttpResult.exn)).length = 2 ∧
    (local_get_embeddings 2 ["x", "y"] HttpResult.exn).length = 2 :=
  ⟨(get_embeddings_lengths 2 ["x", "y"]).1 (fun _ => HttpResult.exn),
   (get_embeddings_lengths 2 ["x", "y"]).2.2.1 HttpResult.exn (by decide)⟩

/- ------------------------------------------------------------------ -/
/- Provider selection: backend/app/ml/provider.py                     -/
/- ------------------------------------------------------------------ -/

/-- The three provider variants the factory can instantiate. -/
inductive ModelProviderKind
  | openai
  | localProvider
  | huggingface
deriving DecidableEq

/-- Python `str.lower()` on the character list underlying a string (ASCII
case folding, which is all the comparisons in `get_model_provider` need). -/
def pyLower (s : String) : String :=
  ⟨s.data.map Char.toLower⟩

/-- Embedding of `get_model_provider` (provider.py lines 7–29): lower-case
the configured `settings.MODEL_PROVIDER`, dispatch on the three known names,
and default to the OpenAI variant for anything unrecognized. -/
def get_model_provider (provider_setting : String) : ModelProviderKind :=
  let provider_type := pyLower provider_setting
  if provider_type = "openai" then ModelProviderKind.openai
  else if provider_type = "local" then ModelProviderKind.localProvider
  else if provider_type = "huggingface" then ModelProviderKind.huggingface
  else ModelProviderKind.openai

/-- C10: provider selection depends only on the lower-cased configured string
(case-insensitive), and any configured string whose lower-casing is none of
`openai`, `local`, `huggingface` selects the OpenAI variant instead of
raising a configuration error. -/
theorem get_model_provider_spec :
    (∀ s t : String, pyLower s = pyLower t → get_model_provider s = get_model_provider t) ∧
    (∀ s : String, pyLower s ≠ "openai" → pyLower s ≠ "local" → pyLower s ≠ "huggingface" →
      get_model_provider s = ModelProviderKind.openai) := by
  constructor
  · intro s t h
    simp only [get_model_provider, h]
  · intro s h1 h2 h3
    simp only [get_model_provider, if_neg h1, if_neg h2, if_neg h3]

/-- Witness for C10 at concrete inputs: the unrecognized setting `Azure`
selects the OpenAI variant, and `OPENAI` selects the same variant as
`openai`. -/
theorem get_model_provider_spec_witness :
    get_model_provider "Azure" = ModelProviderKind.openai ∧
    get_model_provider "OPENAI" = get_model_provider "openai" :=
  ⟨get_model_provider_spec.2 "Azure" (by decide) (by decide) (by decide),
   get_model_provider_spec.1 "OPENAI" "openai" (by decide)⟩

/- ------------------------------------------------------------------ -/
/- Retrieval: backend/app/services/search.py                          -/
/- ------------------------------------------------------------------ -/

/-- One row of the `DocumentChunk ⋈ Document` join that both search paths
query: the chunk's columns plus the owning document's filename. -/
structure ChunkRow where
  id : Nat
  document_id : Nat
  chunk_index : Nat
  content : List Char
  document_filename : String
deriving DecidableEq

/-- One result dictionary produced by `search_documents` / `_fallback_search`. -/
structure SearchResult where
  document_id : Nat
  chunk_id : Nat
  document_filename : String
  content : List Char
  chunk_index : Nat
  similarity : ℚ
deriving DecidableEq

/-- Python `needle in hay` for strings: some suffix of `hay` starts with
`needle` (the empty needle is contained in everything). -/
def containsSub (needle : List Char) : List Char → Bool
  | [] => needle.isEmpty
  | c :: rest => needle.isPrefixOf (c :: rest) || containsSub needle rest

/-- The scanning loop of Python `hay.count(needle)` for a non-empty needle:
walk left to right, counting non-overlapping occurrences and skipping past
each match.  The fuel is an upper bound on the scan length; `hay.length`
suffices because every step drops at least one character. -/
def pyCountFuel (needle : List Char) : Nat → List Char → Nat
  | 0, _ => 0
  | _ + 1, [] => 0
  | fuel + 1, c :: rest =>
    if needle.isPrefixOf (c :: rest) then
      pyCountFuel needle fuel (rest.drop (needle.length - 1)) + 1
    else pyCountFuel needle fuel rest

/-- Python `hay.count(needle)`: `len(hay) + 1` for the empty needle, else the
number of non-overlapping occurrences scanning left to right. -/
def pyCount (needle hay : List Char) : Nat :=
  if needle.isEmpty then hay.length + 1 else pyCountFuel needle hay.length hay

/-- The scoring loop of `SearchService._fallback_search` (search.py lines
116–125): for each joined chunk row, lower-case the content; when it contains
the lower-cased query, score it `count / len` — raising `ZeroDivisionError`
(propagated, like every exception here, to the caller) when the content is
empty, which can only pass the containment test for an empty query. -/
def scoreChunks (ql : List Char) : List ChunkRow → Except PyErr (List (ChunkRow × ℚ))
  | [] => Except.ok []
  | r :: rs =>
    if containsSub ql (r.content.map Char.toLower) then
      if (r.content.map Char.toLower).length = 0 then Except.error PyErr.zeroDivision
      else
        match scoreChunks ql rs with
        | Except.error e => Except.error e
        | Except.ok rest =>
          Except.ok ((r, (pyCount ql (r.content.map Char.toLower) : ℚ) /
            ((r.content.map Char.toLower).length : ℚ)) :: rest)
    else scoreChunks ql rs

/-- Embedding of `SearchService._fallback_search(db, query, limit)`
(search.py lines 100–144): score the rows, stable-sort by score descending
(Python's `sort(key=..., reverse=True)`), truncate to `limit`, and build the
result dictionaries. -/
def fallback_search (query : List Char) (limit : Nat) (rows : List ChunkRow) :
    Except PyErr (List SearchResult) :=
  match scoreChunks (query.map Char.toLower) rows with
  | Except.error e => Except.error e
  | Except.ok scored =>
    Except.ok (((scored.mergeSort (fun a b => decide (b.2 ≤ a.2))).take limit).map
      (fun x =>
        { document_id := x.1.document_id, chunk_id := x.1.id,
          document_filename := x.1.document_filename, content := x.1.content,
          chunk_index := x.1.chunk_index, similarity := x.2 }))

/-- Outcome of the pgvector availability probe in `search_documents`: the
`SELECT EXISTS(...)` either raises (caught by the outer `except`, which
returns `[]`), or reports the extension unavailable (lexical fallback), or
available. -/
inductive PgCheck
  | raises
  | unavail
  | avail
deriving DecidableEq

/-- Outcome of the inner vector-similarity query attempt: it either returns
its rows or raises (caught, falling back to the lexical path). -/
inductive InnerTry
  | ok
  | errs
deriving DecidableEq

/-- The vector path of `search_documents` (search.py lines 52–86): the
database orders all joined rows by `cosine_similarity(embedding, query)`
descending and truncates to `limit`; each result carries its score.  The
scoring function `f` is abstract here: `cosine_similarity` is evaluated
inside PostgreSQL (the repository never defines it in SQL), and no property
below depends on the metric. -/
def vector_search (f : ChunkRow → ℚ) (limit : Nat) (rows : List ChunkRow) : List SearchResult :=
  ((rows.mergeSort (fun a b => decide (f b ≤ f a))).take limit).map
    (fun r =>
      { document_id := r.document_id, chunk_id := r.id,
        document_filename := r.document_filename, content := r.content,
        chunk_index := r.chunk_index, similarity := f r })

/-- Embedding of `SearchService.search_documents(db, query, limit)`
(search.py lines 20–97).  `embedOk` is whether the query-embedding call
returned (the OpenAI variant can raise; the outer `except` then returns
`[]`).  A raising pgvector probe returns `[]`; an unavailable probe falls
back to lexical search; an available probe runs the vector query, falling
back to lexical search if that raises.  An exception escaping
`_fallback_search` is caught by the outer `except`, producing `[]`. -/
def search_documents (f : ChunkRow → ℚ) (embedOk : Bool) (pg : PgCheck) (vtry : InnerTry)
    (query : List Char) (limit : Nat) (rows : List ChunkRow) : List SearchResult :=
  if embedOk then
    match pg with
    | PgCheck.raises => []
    | PgCheck.unavail =>
      match fallback_search query limit rows with
      | Except.ok r => r
      | Except.error _ => []
    | PgCheck.avail =>
      match vtry with
      | InnerTry.ok => vector_search f limit rows
      | InnerTry.errs =>
        match fallback_search query limit rows with
        | Except.ok r => r
        | Except.error _ => []
  else []

/-- A contained non-empty needle is found by the counting scan (any fuel of
at least the scan length). -/
theorem one_le_pyCountFuel (needle : List Char) (hne : needle ≠ []) :
    ∀ (hay : List Char) (fuel : Nat), hay.length ≤ fuel →
      containsSub needle hay = true → 1 ≤ pyCountFuel needle fuel hay := by
  intro hay
  induction hay with
  | nil =>
    intro fuel _ hc
    rw [containsSub, List.isEmpty_iff] at hc
    exact absurd hc hne
  | cons c rest ih =>
    intro fuel hlen hc
    match fuel with
    | 0 => exact absurd hlen (by simp)
    | fuel + 1 =>
      by_cases hp : needle.isPrefixOf (c :: rest) = true
      · simp [pyCountFuel, hp]
      · have hc2 : containsSub needle rest = true := by
          rw [containsSub, Bool.or_eq_true] at hc
          exact hc.resolve_left hp
        have hlen2 : rest.length ≤ fuel := by
          simpa using Nat.succ_le_succ_iff.mp (by simpa using hlen)
        simpa [pyCountFuel, hp] using ih fuel hlen2 hc2

/-- Chunks that pass the containment test have at least one occurrence of the
query. -/
theorem one_le_pyCount (needle hay : List Char) (hc : containsSub needle hay = true) :
    1 ≤ pyCount needle hay := by
  unfold pyCount
  by_cases hn : needle.isEmpty
  · simp [hn]
  · rw [if_neg hn]
    exact one_le_pyCountFuel needle (by simpa [List.isEmpty_iff] using hn) hay hay.length
      le_rfl hc

/-- Invariant of the scoring loop: on success, every scored pair came from a
row whose lower-cased content contains the lower-cased query, and its score
is occurrence count over content length. -/
theorem scoreChunks_sound (ql : List Char) :
    ∀ (rows : List ChunkRow) (scored : List (ChunkRow × ℚ)),
      scoreChunks ql rows = Except.ok scored →
      ∀ x ∈ scored,
        containsSub ql (x.1.content.map Char.toLower) = true ∧
        1 ≤ pyCount ql (x.1.content.map Char.toLower) ∧
        x.2 = (pyCount ql (x.1.content.map Char.toLower) : ℚ) /
          ((x.1.content.map Char.toLower).length : ℚ) := by
  intro rows
  induction rows with
  | nil =>
    intro scored h x hx
    cases h
    exact absurd hx (List.not_mem_nil x)
  | cons r rs ih =>
    intro scored h x hx
    unfold scoreChunks at h
    split at h
    next hcont =>
      split at h
      next hz => cases h
      next hz =>
        split at h
        next e heq => cases h
        next rest heq =>
          cases h
          rcases List.mem_cons.mp hx with hx1 | hx2
          · subst hx1
            exact ⟨hcont, one_le_pyCount _ _ hcont, rfl⟩
          · exact ih rest heq x hx2
    next hcont => exact ih scored h x hx

/-- Stable descending sort by a rational key, then truncation, is pairwise
non-increasing in that key. -/
theorem pairwise_take_mergeSort {α : Type} (g : α → ℚ) (n : Nat) (l : List α) :
    List.Pairwise (fun a b : α => g b ≤ g a)
      ((l.mergeSort (fun a b => decide (g b ≤ g a))).take n) := by
  have hs := @List.sorted_mergeSort α (fun a b => decide (g b ≤ g a))
    (fun a b c hab hbc =>
      decide_eq_true (le_trans (of_decide_eq_true hbc) (of_decide_eq_true hab)))
    (fun a b => by
      rcases le_total (g b) (g a) with h | h
      · simp [h]
      · simp [h])
    l
  exact (List.Pairwise.sublist (List.take_sublist n _) hs).imp (fun h => of_decide_eq_true h)

/-- What a successful lexical fallback returns: at most `limit` results,
ordered by non-increasing similarity, every one containing the lower-cased
query in its lower-cased content with score `count / len(content)`. -/
theorem fallback_search_sound (query : List Char) (limit : Nat) (rows : List ChunkRow)
    (res : List SearchResult) (h : fallback_search query limit rows = Except.ok res) :
    res.length ≤ limit ∧
    List.Pairwise (fun a b : SearchResult => b.similarity ≤ a.similarity) res ∧
    ∀ x ∈ res,
      containsSub (query.map Char.toLower) (x.content.map Char.toLower) = true ∧
      1 ≤ pyCount (query.map Char.toLower) (x.content.map Char.toLower) ∧
      x.similarity = (pyCount (query.map Char.toLower) (x.content.map Char.toLower) : ℚ) /
        (x.content.length : ℚ) := by
  unfold fallback_search at h
  split at h
  next e heq => cases h
  next scored heq =>
    cases h
    refine ⟨?_, ?_, ?_⟩
    · rw [List.length_map, List.length_take]
      exact min_le_left _ _
    · exact List.pairwise_map.mpr (pairwise_take_mergeSort (fun x : ChunkRow × ℚ => x.2) limit scored)
    · intro x hx
      rcases List.mem_map.mp hx with ⟨y, hy, rfl⟩
      have hy2 : y ∈ scored :=
        (List.mergeSort_perm scored (fun a b => decide (b.2 ≤ a.2))).mem_iff.mp
          (List.take_subset _ _ hy)
      have hs := scoreChunks_sound (query.map Char.toLower) rows scored heq y hy2
      refine ⟨hs.1, hs.2.1, ?_⟩
      rw [show (y.1.content.length : ℚ) = ((y.1.content.map Char.toLower).length : ℚ) by
        rw [List.length_map]]
      exact hs.2.2

/- ------------------------------------------------------------------ -/
/- C5: the lexical fallback's results                                 -/
/- ------------------------------------------------------------------ -/

/-- C5: every result of the lexical fallback has lower-cased content
containing the lower-cased query (hence at least one occurrence — chunks with
zero occurrences are excluded), its similarity is the occurrence count of the
lower-cased query divided by the content length, and the result list is
ordered by similarity non-increasing and truncated to `limit`. -/
theorem fallback_search_spec (query : List Char) (limit : Nat) (rows : List ChunkRow)
    (res : List SearchResult) (h : fallback_search query limit rows = Except.ok res) :
    res.length ≤ limit ∧
    List.Pairwise (fun a b : SearchResult => b.similarity ≤ a.similarity) res ∧
    ∀ x ∈ res,
      containsSub (query.map Char.toLower) (x.content.map Char.toLower) = true ∧
      1 ≤ pyCount (query.map Char.toLower) (x.content.map Char.toLower) ∧
      x.similarity = (pyCount (query.map Char.toLower) (x.content.map Char.toLower) : ℚ) /
        (x.content.length : ℚ) :=
  fallback_search_sound query limit rows res h

/-- Witness for C5 at a concrete input: searching `a` over one chunk with
content `b` scans the row, finds no containment, and returns an empty, 
trivially ordered result list. -/
theorem fallback_search_spec_witness :
    ([] : List SearchResult).length ≤ 5 ∧
    List.Pairwise (fun a b : SearchResult => b.similarity ≤ a.similarity)
      ([] : List SearchResult) ∧
    ∀ x ∈ ([] : List SearchResult),
      containsSub (['a'].map Char.toLower) (x.content.map Char.toLower) = true ∧
      1 ≤ pyCount (['a'].map Char.toLower) (x.content.map Char.toLower) ∧
      x.similarity = (pyCount (['a'].map Char.toLower) (x.content.map Char.toLower) : ℚ) /
        (x.content.length : ℚ) :=
  fallback_search_spec ['a'] 5 [⟨1, 1, 0, ['b'], "f"⟩] [] (by
    have h1 : scoreChunks (['a'].map Char.toLower) [⟨1, 1, 0, ['b'], "f"⟩] =
        Except.ok [] := rfl
    unfold fallback_search
    rw [h1]
    simp [List.mergeSort_nil])

/- ------------------------------------------------------------------ -/
/- C6: search always returns ≤ limit results, similarity descending   -/
/- ------------------------------------------------------------------ -/

/-- C6: on every path — query-embedding failure, probe failure, vector
similarity, vector error falling back to lexical, lexical failure — the
search returns at most `limit` results in non-increasing similarity order. -/
theorem search_documents_ordered (f : ChunkRow → ℚ) (embedOk : Bool) (pg : PgCheck)
    (vtry : InnerTry) (query : List Char) (limit : Nat) (rows : List ChunkRow) :
    (search_documents f embedOk pg vtry query limit rows).length ≤ limit ∧
    List.Pairwise (fun a b : SearchResult => b.similarity ≤ a.similarity)
      (search_documents f embedOk pg vtry query limit rows) := by
  have hvec : (vector_search f limit rows).length ≤ limit ∧
      List.Pairwise (fun a b : SearchResult => b.similarity ≤ a.similarity)
        (vector_search f limit rows) := by
    constructor
    · rw [vector_search, List.length_map, List.length_take]
      exact min_le_left _ _
    · exact List.pairwise_map.mpr (pairwise_take_mergeSort f limit rows)
  have hfall : ∀ q : List Char,
      ((match fallback_search q limit rows with
        | Except.ok r => r
        | Except.error _ => ([] : List SearchResult)).length ≤ limit ∧
      List.Pairwise (fun a b : SearchResult => b.similarity ≤ a.similarity)
        (match fallback_search q limit rows with
          | Except.ok r => r
          | Except.error _ => ([] : List SearchResult))) := by
    intro q
    cases heq : fallback_search q limit rows with
    | error e => simp
    | ok r =>
      have hs := fallback_search_sound q limit rows r heq
      exact ⟨hs.1, hs.2.1⟩
  cases embedOk with
  | false => simp [search_documents]
  | true =>
    cases pg with
    | raises => simp [search_documents]
    | unavail => simpa [search_documents] using hfall query
    | avail =>
      cases vtry with
      | ok => simpa [search_documents] using hvec
      | errs => simpa [search_documents] using hfall query

/- ------------------------------------------------------------------ -/
/- Document lifecycle: backend/app/services/document.py and           -/
/- backend/app/api/endpoints/documents.py                             -/
/- ------------------------------------------------------------------ -/

/-- A persisted document row: identity, upload metadata, raw text, and the
ordered chunk-id list (created empty, `nullable` in the schema but always
written as a list by the service code). -/
structure Doc where
  id : Nat
  filename : String
  content : String
  chunk_ids : List Nat
deriving DecidableEq

/-- The operations of the service layer that touch the document table's
`chunk_ids` column (document.py): `create` is `create_document` (inserts with
`chunk_ids=[]`); `finalize` is the single `document.chunk_ids = chunk_ids;
db.commit()` write at the end of `process_document` (lines 77–79), carrying
the full ordered id list of the run's persisted chunks; `delete` is
`delete_document`.  No other code in the repository writes `chunk_ids`. -/
inductive DocOp
  | create (id : Nat) (filename content : String)
  | finalize (id : Nat) (ids : List Nat)
  | delete (id : Nat)
deriving DecidableEq

/-- Effect of one operation on the document table. -/
def applyOp (ds : List Doc) : DocOp → List Doc
  | DocOp.create id f c => ds ++ [{ id := id, filename := f, content := c, chunk_ids := [] }]
  | DocOp.finalize id ids =>
    ds.map (fun d => if d.id = id then { d with chunk_ids := ids } else d)
  | DocOp.delete id => ds.filter (fun d => d.id ≠ id)

/-- The document table produced by a trace of operations, starting empty. -/
def runOps (ops : List DocOp) : List Doc :=
  ops.foldl applyOp []

/-- The derived status reported by the listing and get endpoints
(documents.py lines 137 and 202): `"Processed" if doc.chunk_ids else
"Processing"`. -/
def docStatus (d : Doc) : String :=
  if d.chunk_ids.isEmpty then "Processing" else "Processed"

/-- Trace invariant: any document whose `chunk_ids` is non-empty got that
exact list from a `finalize` write in the trace (relative to a starting
table `s`). -/
theorem runOps_finalize_invariant :
    ∀ (ops : List DocOp) (s : List Doc) (d : Doc), d ∈ List.foldl applyOp s ops →
      d.chunk_ids ≠ [] →
      DocOp.finalize d.id d.chunk_ids ∈ ops ∨
        ∃ d0 ∈ s, d0.id = d.id ∧ d0.chunk_ids = d.chunk_ids := by
  intro ops
  induction ops with
  | nil =>
    intro s d hd hne
    exact Or.inr ⟨d, hd, rfl, rfl⟩
  | cons op ops ih =>
    intro s d hd hne
    rcases ih (applyOp s op) d hd hne with hop | ⟨d0, hd0, hid, hids⟩
    · exact Or.inl (List.mem_cons_of_mem op hop)
    · match op with
      | DocOp.create id f c =>
        rcases List.mem_append.mp hd0 with h | h
        · exact Or.inr ⟨d0, h, hid, hids⟩
        · have : d0 = { id := id, filename := f, content := c, chunk_ids := [] } :=
            List.mem_singleton.mp h
          rw [this] at hids
          exact absurd hids.symm hne
      | DocOp.finalize id ids =>
        rcases List.mem_map.mp hd0 with ⟨d1, hd1, hupd⟩
        by_cases hsame : d1.id = id
        · rw [if_pos hsame] at hupd
          have h1 : d.chunk_ids = ids := by rw [← hids, ← hupd]
          have h2 : d.id = id := by
            rw [← hid, ← hupd, hsame]
          rw [h1, h2]
          exact Or.inl (List.mem_cons_self _ _)
        · rw [if_neg hsame] at hupd
          rw [hupd] at hd1
          exact Or.inr ⟨d0, hd1, hid, hids⟩
      | DocOp.delete id =>
        exact Or.inr ⟨d0, List.mem_of_mem_filter hd0, hid, hids⟩

/- ------------------------------------------------------------------ -/
/- C7: "Processed" iff chunk_ids non-empty, written once by ingestion -/
/- ------------------------------------------------------------------ -/

/-- C7: a document is reported `Processed` exactly when its `chunk_ids` list
is non-empty, and in any reachable table state a non-empty `chunk_ids` can
only have been produced by the single final `finalize` write of
`process_document`, which stored the full ordered list in one update —
creation and deletion never make `chunk_ids` non-empty. -/
theorem processed_iff_finalized (ops : List DocOp) (d : Doc) (hd : d ∈ runOps ops) :
    (docStatus d = "Processed" ↔ d.chunk_ids ≠ []) ∧
    (d.chunk_ids ≠ [] → DocOp.finalize d.id d.chunk_ids ∈ ops) := by
  constructor
  · unfold docStatus
    by_cases he : d.chunk_ids.isEmpty
    · rw [if_pos he]
      simp [List.isEmpty_iff.mp he]
    · rw [if_neg he]
      simp [List.isEmpty_iff] at he
      simp [he]
  · intro hne
    rcases runOps_finalize_invariant ops [] d hd hne with h | ⟨d0, hd0, _⟩
    · exact h
    · exact absurd hd0 (List.not_mem_nil d0)

/-- Witness for C7 at a concrete trace: create document 1, then finalize it
with chunk ids `[7, 8]`; the resulting row is reported `Processed` and its
`chunk_ids` came from the finalize write. -/
theorem processed_iff_finalized_witness :
    (docStatus { id := 1, filename := "f.txt", content := "hello", chunk_ids := [7, 8] } =
        "Processed" ↔
      ({ id := 1, filename := "f.txt", content := "hello", chunk_ids := [7, 8] } : Doc).chunk_ids ≠
        []) ∧
    (({ id := 1, filename := "f.txt", content := "hello", chunk_ids := [7, 8] } : Doc).chunk_ids ≠
        [] →
      DocOp.finalize 1 [7, 8] ∈
        [DocOp.create 1 "f.txt" "hello", DocOp.finalize 1 [7, 8]]) :=
  processed_iff_finalized [DocOp.create 1 "f.txt" "hello", DocOp.finalize 1 [7, 8]]
    { id := 1, filename := "f.txt", content := "hello", chunk_ids := [7, 8] } (by decide)
